import Mathlib

/-!
# Verification of the KaolCode job orchestrator core

Shallow embedding of the Python sources under `src/codex_home/`
(`failure_taxonomy.py`, `queueing.py`, `repository.py`, `job_runner.py`,
`orchestrator.py`) together with proofs about the embedded operations.

Python strings manipulated character-by-character (the failure taxonomy)
are embedded as lists of Unicode code points (`List Nat`), which is what a
Python `str` is; strings only compared for equality are embedded as Lean
`String`s.  Python `float` money amounts are embedded as `Rat` (exact
field arithmetic); `datetime` values are embedded as integer Unix seconds
plus explicit calendar dates where the code buckets rows by calendar day.
-/

namespace KaolCode

/-! ## Failure taxonomy — `failure_taxonomy.py`

A Python `str` is a sequence of Unicode code points; we embed it as
`List Nat`.  `str.strip()` (no argument) removes the ASCII whitespace
characters at both ends; `str.upper()` on the code-point range used by
failure codes maps `a`–`z` (97–122) to `A`–`Z` (65–90). -/

/-- Code points removed by Python `str.strip()` (ASCII whitespace). -/
def isSpaceCp (n : Nat) : Bool :=
  n == 32 || n == 9 || n == 10 || n == 13 || n == 11 || n == 12

/-- `str.upper()` on one code point (ASCII letters; others unchanged). -/
def upperCp (n : Nat) : Nat :=
  if 97 ≤ n ∧ n ≤ 122 then n - 32 else n

/-- `str.upper()` over a whole string. -/
def upperCps (l : List Nat) : List Nat := l.map upperCp

/-- `str.strip()`: drop ASCII whitespace from both ends. -/
def stripCp (l : List Nat) : List Nat :=
  List.rdropWhile isSpaceCp (l.dropWhile isSpaceCp)

/-- A Lean string literal as a Python string (list of code points). -/
def pyStr (s : String) : List Nat := s.data.map Char.toNat

/-- `s.split(":", 1)[0]`: the part of `s` before the first colon (code point 58). -/
def beforeColon (l : List Nat) : List Nat := l.takeWhile (fun n => n != 58)

/-- `s.startswith(p)` for code-point strings. -/
def startsWithL : List Nat → List Nat → Bool
  | [], _ => true
  | _ :: _, [] => false
  | p :: ps, c :: cs => p == c && startsWithL ps cs

/-- `s.endswith(p)` for code-point strings. -/
def endsWithL (p l : List Nat) : Bool := startsWithL p.reverse l.reverse

/-- `normalize_failure_code` (`failure_taxonomy.py` lines 4–10): empty or
absent reason gives `UNKNOWN`; otherwise trim, take the part before the
first `:`, trim again, uppercase. -/
def normalize_failure_code (reason : Option (List Nat)) : List Nat :=
  match reason with
  | none => pyStr "UNKNOWN"
  | some s =>
    if s = [] then pyStr "UNKNOWN"
    else
      let raw := stripCp s
      if raw = [] then pyStr "UNKNOWN"
      else upperCps (stripCp (beforeColon raw))

/-- `classify_failure_reason` (`failure_taxonomy.py` lines 13–42): normalize,
then map the code through the ordered prefix/suffix table. -/
def classify_failure_reason (reason : Option (List Nat)) : String :=
  let code := normalize_failure_code reason
  if startsWithL (pyStr "CAP_") code then "budget_cap"
  else if startsWithL (pyStr "BLOCKED_COMMAND") code then "command_policy"
  else if startsWithL (pyStr "DOMAIN_NOT_ALLOWLISTED") code then "domain_policy"
  else if startsWithL (pyStr "ALLOWED_PATHS_VIOLATION") code then "path_policy"
  else if endsWithL (pyStr "APPROVAL_REQUIRED") code then "approval_gate"
  else if startsWithL (pyStr "SECRET_PATTERN_DETECTED") code then "secret_guard"
  else if startsWithL (pyStr "ACCEPTANCE_COMMAND_FAILED") code then "acceptance_test"
  else if startsWithL (pyStr "GIT_") code then "git_failure"
  else if startsWithL (pyStr "GITHUB_") code then "github_api"
  else if startsWithL (pyStr "KILL_SWITCH_ACTIVE") code then "safety_control"
  else if startsWithL (pyStr "NO_") code then "execution_logic"
  else if startsWithL (pyStr "WORKSPACE_NOT_READY") code then "runtime_state"
  else if startsWithL (pyStr "INVALID_") code then "input_validation"
  else "runtime_error"

example : normalize_failure_code (some (pyStr "CAP_COST_EXCEEDED: over limit")) =
    pyStr "CAP_COST_EXCEEDED" := by decide
example : normalize_failure_code (some (pyStr "  blocked_command: rm -rf /  ")) =
    pyStr "BLOCKED_COMMAND" := by decide
example : normalize_failure_code (some (pyStr "")) = pyStr "UNKNOWN" := by decide
example : normalize_failure_code none = pyStr "UNKNOWN" := by decide
example : classify_failure_reason (some (pyStr "KILL_SWITCH_ACTIVE")) = "safety_control" := by decide
example : classify_failure_reason (some (pyStr "SENSITIVE_PATH_APPROVAL_REQUIRED")) =
    "approval_gate" := by decide
example : classify_failure_reason (some (pyStr "unhandled crash in worker")) =
    "runtime_error" := by decide

/-! ### Classification is invariant under a prior normalization pass (C9) -/

lemma isSpaceCp_eq_false {n : Nat} (h : 33 ≤ n) : isSpaceCp n = false := by
  simp only [isSpaceCp, Bool.or_eq_false_iff, beq_eq_false_iff_ne, ne_eq]
  omega

lemma isSpaceCp_upperCp (n : Nat) : isSpaceCp (upperCp n) = isSpaceCp n := by
  unfold upperCp
  split
  · rename_i h
    rw [isSpaceCp_eq_false (by omega), isSpaceCp_eq_false (by omega)]
  · rfl

lemma upperCp_idem (n : Nat) : upperCp (upperCp n) = upperCp n := by
  unfold upperCp
  split
  · rw [if_neg (by omega)]
  · rfl

lemma upperCp_ne_colon {n : Nat} (h : n ≠ 58) : upperCp n ≠ 58 := by
  unfold upperCp
  split <;> omega

lemma upperCps_idem (l : List Nat) : upperCps (upperCps l) = upperCps l := by
  simp only [upperCps, List.map_map]
  congr 1
  funext n
  simp [Function.comp, upperCp_idem]

lemma dropWhile_map_upperCp (l : List Nat) :
    (l.map upperCp).dropWhile isSpaceCp = (l.dropWhile isSpaceCp).map upperCp := by
  induction l with
  | nil => rfl
  | cons a as ih =>
    simp only [List.map_cons, List.dropWhile_cons, isSpaceCp_upperCp]
    split <;> simp [ih]

lemma stripCp_upperCps (l : List Nat) : stripCp (upperCps l) = upperCps (stripCp l) := by
  simp only [stripCp, upperCps, List.rdropWhile]
  rw [dropWhile_map_upperCp, ← List.map_reverse, dropWhile_map_upperCp, List.map_reverse]

lemma dropWhile_stripCp (l : List Nat) : (stripCp l).dropWhile isSpaceCp = stripCp l := by
  rw [List.dropWhile_eq_self_iff]
  intro hl
  have hpre : List.rdropWhile isSpaceCp (l.dropWhile isSpaceCp) <+: l.dropWhile isSpaceCp :=
    List.rdropWhile_prefix _ _
  have hlen : 0 < (l.dropWhile isSpaceCp).length :=
    lt_of_lt_of_le hl hpre.length_le
  have hget := hpre.getElem (show 0 < (stripCp l).length from hl)
  simp only [stripCp] at *
  rw [List.get_eq_getElem, hget]
  have := List.dropWhile_get_zero_not isSpaceCp l hlen
  simpa using this

lemma stripCp_idem (l : List Nat) : stripCp (stripCp l) = stripCp l := by
  conv_lhs => rw [stripCp, dropWhile_stripCp]
  rw [stripCp, List.rdropWhile_idempotent]

lemma stripCp_subset (l : List Nat) : stripCp l ⊆ l := fun _ ha =>
  (List.dropWhile_suffix isSpaceCp).subset
    (List.IsPrefix.subset ( List.rdropWhile_prefix isSpaceCp (l.dropWhile isSpaceCp)) ha)

/-- The normalized code contains no colon, so `beforeColon` leaves it alone. -/
lemma beforeColon_normalized (raw : List Nat) :
    beforeColon (upperCps (stripCp (beforeColon raw))) = upperCps (stripCp (beforeColon raw)) := by
  rw [beforeColon, List.takeWhile_eq_self_iff]
  intro a ha
  simp only [upperCps, List.mem_map] at ha
  obtain ⟨b, hb, rfl⟩ := ha
  have hbraw : b ∈ beforeColon raw := stripCp_subset _ hb
  have hbne : b ≠ 58 := by
    have := List.mem_takeWhile_imp hbraw
    simpa using this
  simpa using upperCp_ne_colon hbne

/-- Re-normalizing a normalized code is the identity, except that an empty
code re-normalizes to `UNKNOWN`. -/
lemma normalize_failure_code_idem (r : Option (List Nat)) :
    normalize_failure_code (some (normalize_failure_code r)) = normalize_failure_code r ∨
      (normalize_failure_code r = [] ∧
        normalize_failure_code (some (normalize_failure_code r)) = pyStr "UNKNOWN") := by
  have hU : normalize_failure_code (some (pyStr "UNKNOWN")) = pyStr "UNKNOWN" := by decide
  match r with
  | none => exact Or.inl hU
  | some s =>
    by_cases hs : s = []
    · left
      rw [show normalize_failure_code (some s) = pyStr "UNKNOWN" by
        simp [normalize_failure_code, hs]]
      exact hU
    · by_cases hraw : stripCp s = []
      · left
        rw [show normalize_failure_code (some s) = pyStr "UNKNOWN" by
          simp [normalize_failure_code, hs, hraw]]
        exact hU
      · have hval : normalize_failure_code (some s) =
            upperCps (stripCp (beforeColon (stripCp s))) := by
          simp [normalize_failure_code, hs, hraw]
        set c := upperCps (stripCp (beforeColon (stripCp s))) with hc
        by_cases hcnil : c = []
        · right
          refine ⟨by rw [hval, hcnil], ?_⟩
          rw [hval, hcnil]
          decide
        · left
          rw [hval]
          have hstripc : stripCp c = c := by
            rw [hc, stripCp_upperCps, stripCp_idem]
          have : normalize_failure_code (some c) =
              upperCps (stripCp (beforeColon (stripCp c))) := by
            simp only [normalize_failure_code, if_neg hcnil]
            rw [hstripc, if_neg hcnil]
          rw [this, hstripc, hc, beforeColon_normalized, stripCp_upperCps, stripCp_idem,
            upperCps_idem]

/-- C9: For every input r (any string or absent),
`classify_failure_reason(normalize_failure_code(r))` equals
`classify_failure_reason(r)`: classification is invariant under a prior
normalization pass. -/
theorem classify_of_normalize_eq_classify (r : Option (List Nat)) :
    classify_failure_reason (some (normalize_failure_code r)) = classify_failure_reason r := by
  rcases normalize_failure_code_idem r with h | ⟨h0, hU⟩
  · unfold classify_failure_reason
    rw [h]
  · unfold classify_failure_reason
    rw [hU, h0]
    decide

/-! ## Queue & kill switch — `queueing.py`

Lean `String`s stand in for Python strings that are only built and
compared, with `str.strip()`/`str.lower()` modelled character-wise. -/

/-- Characters removed by Python `str.strip()` (ASCII whitespace). -/
def isSpaceChar (c : Char) : Bool :=
  c == ' ' || c == '\t' || c == '\n' || c == '\r' || c == Char.ofNat 11 || c == Char.ofNat 12

/-- `str.strip()` on a Lean string. -/
def stripStr (s : String) : String :=
  ⟨List.rdropWhile isSpaceChar (s.data.dropWhile isSpaceChar)⟩

/-- `str.lower()` on one character (ASCII letters; others unchanged). -/
def lowerChar (c : Char) : Char :=
  if 'A' ≤ c ∧ c ≤ 'Z' then Char.ofNat (c.toNat + 32) else c

/-- `str.lower()` on a Lean string. -/
def lowerStr (s : String) : String := ⟨s.data.map lowerChar⟩

/-- `normalize_retry_intervals` (`queueing.py` lines 66–74).  Python returns
`int | list[int]`, embedded as `Sum Int (List Int)` (`.inl` = single
interval). -/
def normalize_retry_intervals (max_retries : Int) (intervals : List Int) : Sum Int (List Int) :=
  let sanitized := (intervals.filter (fun value => 0 < value)).map (fun value => max 1 value)
  let sanitized := if sanitized = [] then [30] else sanitized
  if max_retries ≤ 1 then Sum.inl (sanitized.headD 30)
  else
    let sanitized :=
      if sanitized.length < max_retries.toNat then
        sanitized ++ List.replicate (max_retries.toNat - sanitized.length) (sanitized.getLastD 30)
      else sanitized
    Sum.inr (sanitized.take max_retries.toNat)

example : normalize_retry_intervals 1 [30, 120] = Sum.inl 30 := by decide
example : normalize_retry_intervals 3 [15] = Sum.inr [15, 15, 15] := by decide
example : normalize_retry_intervals 2 [10, 20, 30] = Sum.inr [10, 20] := by decide

/-- `agents_enabled` (`queueing.py` lines 110–116): the cluster flag stored
under key `agents_enabled`; an absent key means enabled, otherwise the value
is trimmed, lowercased and compared to `"true"`. -/
def agents_enabled (value : Option String) : Bool :=
  match value with
  | none => true
  | some s => lowerStr (stripStr s) == "true"

example : agents_enabled none = true := by decide
example : agents_enabled (some "false") = false := by decide
example : agents_enabled (some " True ") = true := by decide

lemma sanitize_pos {xs : List Int} (h : ∀ x ∈ xs, 0 < x) :
    (xs.filter (fun value => 0 < value)).map (fun value => max 1 value) = xs := by
  rw [List.filter_eq_self.mpr (fun x hx => by simpa using h x hx)]
  conv_rhs => rw [← List.map_id xs]
  exact List.map_congr_left fun x hx => max_eq_right (h x hx)

/-- C8 (counterexample): `normalize_retry_intervals(1, [0])` is `30`, not the
head `0` — non-positive entries are filtered out before the head is taken, so
the claimed identity fails on a non-empty intervals list. -/
theorem normalize_retry_intervals_head_cex :
    normalize_retry_intervals 1 [0] = Sum.inl 30 ∧
      normalize_retry_intervals 1 [0] ≠ Sum.inl 0 := by decide

/-- C8 (amended): with a positive head, `normalize_retry_intervals(1, a::rest)`
is `a`, and `30` on the empty list; for `n ≥ 2` the result is a list of exactly
length `n`, and on a non-empty all-positive intervals list it is exactly the
input padded with its last element or truncated to length `n`. -/
theorem normalize_retry_intervals_spec :
    (∀ (a : Int) (rest : List Int), 0 < a →
        normalize_retry_intervals 1 (a :: rest) = Sum.inl a) ∧
      normalize_retry_intervals 1 [] = Sum.inl 30 ∧
      (∀ (n : Int) (xs : List Int), 2 ≤ n →
        ∃ l, normalize_retry_intervals n xs = Sum.inr l ∧ l.length = n.toNat) ∧
      ∀ (n : Int) (xs : List Int), 2 ≤ n → xs ≠ [] → (∀ x ∈ xs, 0 < x) →
        normalize_retry_intervals n xs =
          Sum.inr ((xs ++ List.replicate (n.toNat - xs.length) (xs.getLastD 30)).take n.toNat) := by
  refine ⟨fun a rest ha => ?_, by decide, fun n xs hn => ?_, fun n xs hn hne hpos => ?_⟩
  · simp only [normalize_retry_intervals, List.filter_cons, decide_eq_true_eq, if_pos ha,
      List.map_cons]
    rw [if_pos (le_refl (1 : Int)), if_neg (List.cons_ne_nil _ _)]
    rw [List.headD_cons, max_eq_right (by omega : (1 : Int) ≤ a)]
  · simp only [normalize_retry_intervals]
    rw [if_neg (by omega)]
    refine ⟨_, rfl, ?_⟩
    set s := (if (xs.filter (fun value => 0 < value)).map (fun value => max 1 value) = [] then
        ([30] : List Int)
      else (xs.filter (fun value => 0 < value)).map (fun value => max 1 value)) with hs
    have hsne : s ≠ [] := by
      rw [hs]
      split <;> simp_all
    have hslen : 0 < s.length := List.length_pos.mpr hsne
    split <;> simp only [List.length_take, List.length_append, List.length_replicate] <;> omega
  · simp only [normalize_retry_intervals, sanitize_pos hpos]
    rw [if_neg hne, if_neg (by omega)]
    split
    · rfl
    · rename_i hlen
      rw [show n.toNat - xs.length = 0 by omega]
      simp

/-- C8 witness: the amended head identity evaluated at `a = 5`. -/
theorem normalize_retry_intervals_spec_witness :
    (0 : Int) < 5 ∧ normalize_retry_intervals 1 [5, 7] = Sum.inl 5 :=
  ⟨by decide, normalize_retry_intervals_spec.1 5 [7] (by decide)⟩

/-! ## Data model — `models.py` / `types.py`

Monetary `float` columns are embedded as `Rat`; `datetime` columns as
integer Unix seconds, with the UTC calendar date of ledger rows kept
explicitly because `daily_cost`/`monthly_cost` bucket rows by calendar
day and month. -/

inductive JobStatus where
  | queued | running | awaiting_approval | completed | failed | rejected
deriving DecidableEq, Repr

inductive RiskClass where
  | code | deps | infra | secrets | destructive
deriving DecidableEq, Repr

/-- The `.value` string of a `RiskClass` enum member. -/
def RiskClass.value : RiskClass → String
  | .code => "code"
  | .deps => "deps"
  | .infra => "infra"
  | .secrets => "secrets"
  | .destructive => "destructive"

inductive ApprovalAction where
  | merge | infra | secrets | destructive
deriving DecidableEq, Repr

/-- A UTC calendar date (`datetime.date`). -/
structure CalDate where
  year : Nat
  month : Nat
  day : Nat
deriving DecidableEq, Repr

structure Job where
  job_id : String
  repo : String
  issue_number : Nat
  base_branch : String
  risk_class : RiskClass
  status : JobStatus
  model_profile : String
  requires_approval : List ApprovalAction
  allowed_paths : List String
  acceptance_commands : List String
  artifact_contract : List String
  caps_max_minutes : Nat
  caps_max_iterations : Nat
  caps_max_usd : Rat
  created_by : String
  created_at : Int
  updated_at : Int
  current_stage : Option String := none
  failure_reason : Option String := none
  pr_url : Option String := none
  cost_usd : Rat := 0
deriving DecidableEq, Repr

structure JobEvent where
  job_id : String
  stage : String
  event_type : String
  message : String
  metadata : Option (List (String × String)) := none
deriving DecidableEq, Repr

structure Approval where
  job_id : String
  action : ApprovalAction
  actor : String
  approved : Bool
  reason : Option String
deriving DecidableEq, Repr

structure PolicyAudit where
  job_id : String
  decision : String
  rule_id : String
  details : String
deriving DecidableEq, Repr

structure CostLedgerRow where
  job_id : String
  model : String
  prompt_tokens : Nat
  completion_tokens : Nat
  cost_usd : Rat
  created_date : CalDate
deriving DecidableEq, Repr

structure RepoProfile where
  repo : String
  enabled : Bool
  default_base_branch : String
  allowed_paths : List String
  acceptance_commands : List String
deriving DecidableEq, Repr

/-- The database state owned by the Job Store. -/
structure Store where
  jobs : List Job := []
  events : List JobEvent := []
  approvals : List Approval := []
  ledger : List CostLedgerRow := []
  audits : List PolicyAudit := []
  repo_profiles : List RepoProfile := []
deriving DecidableEq, Repr

/-- `Caps` (`types.py`). -/
structure Caps where
  max_minutes : Nat := 45
  max_iterations : Nat := 8
  max_usd : Rat := 3
deriving DecidableEq, Repr

/-- `JobSpecV1` (`types.py`). -/
structure JobSpecV1 where
  job_id : String
  repo : String
  issue_number : Nat
  base_branch : String := "main"
  risk_class : RiskClass := .code
  allowed_paths : List String := []
  acceptance_commands : List String := []
  caps : Caps := {}
  model_profile : String := "build"
  requires_approval : List ApprovalAction := [.merge]
  artifact_contract : List String :=
    ["plan.md", "patch.diff", "test.log", "review.md", "cost.json", "run.jsonl"]
  created_by : String := "system"
  created_at : Int
deriving DecidableEq, Repr

/-! ## Job Store operations — `repository.py` -/

/-- `Repository.get_job`: primary-key lookup. -/
def get_job (s : Store) (job_id : String) : Option Job :=
  s.jobs.find? (fun j => j.job_id == job_id)

/-- `Repository.add_job_event` (lines 86–103): append-only. -/
def add_job_event (s : Store) (job_id stage event_type message : String)
    (metadata : Option (List (String × String)) := none) : Store :=
  { s with events := s.events ++ [⟨job_id, stage, event_type, message, metadata⟩] }

/-- `Repository.create_job` (lines 17–47): persist with status queued and a
`created` event in the same transaction.  `jobs.job_id` is the primary key:
a duplicate insert fails the commit and nothing persists. -/
def create_job (s : Store) (spec : JobSpecV1) : Store :=
  if (get_job s spec.job_id).isSome then s
  else
    let job : Job :=
      { job_id := spec.job_id
        repo := spec.repo
        issue_number := spec.issue_number
        base_branch := spec.base_branch
        risk_class := spec.risk_class
        status := .queued
        model_profile := spec.model_profile
        requires_approval := spec.requires_approval
        allowed_paths := spec.allowed_paths
        acceptance_commands := spec.acceptance_commands
        artifact_contract := spec.artifact_contract
        caps_max_minutes := spec.caps.max_minutes
        caps_max_iterations := spec.caps.max_iterations
        caps_max_usd := spec.caps.max_usd
        created_by := spec.created_by
        created_at := spec.created_at
        updated_at := spec.created_at }
    add_job_event { s with jobs := s.jobs ++ [job] } spec.job_id "enqueue" "created"
      "Job created and queued." (some [("source", spec.created_by)])

/-- The field updates performed by `Repository.update_job_status` on the job
row.  `if reason:` is a Python truthiness test — both `None` and the empty
string leave `failure_reason` untouched — while `pr_url` is compared with
`is not None`. -/
def applyStatusUpdate (status : JobStatus) (stage reason pr_url : Option String) (now : Int)
    (j : Job) : Job :=
  let j := { j with status := status, updated_at := now }
  let j := match stage with
    | some st => { j with current_stage := some st }
    | none => j
  let j := match reason with
    | some r => if r ≠ "" then { j with failure_reason := some r } else j
    | none => j
  match pr_url with
  | some u => { j with pr_url := some u }
  | none => j

/-- `Repository.update_job_status` (lines 66–84), applied to the row with the
given primary key. -/
def update_job_status (s : Store) (job_id : String) (status : JobStatus)
    (stage reason pr_url : Option String) (now : Int) : Store :=
  { s with jobs := s.jobs.map (fun j =>
      if j.job_id == job_id then applyStatusUpdate status stage reason pr_url now j else j) }

/-- `Repository.add_approval` (lines 105–122). -/
def add_approval (s : Store) (job_id : String) (action : ApprovalAction) (actor : String)
    (approved : Bool) (reason : Option String) : Store :=
  { s with approvals := s.approvals ++ [⟨job_id, action, actor, approved, reason⟩] }

/-- `Repository.has_approval` (lines 124–133): a row with `approved=true`
exists for the `(job_id, action)` pair. -/
def has_approval (s : Store) (job_id : String) (action : ApprovalAction) : Bool :=
  s.approvals.any (fun a => a.job_id == job_id && a.action == action && a.approved)

/-- `Repository.add_policy_audit` (lines 135–139). -/
def add_policy_audit (s : Store) (job_id decision rule_id details : String) : Store :=
  { s with audits := s.audits ++ [⟨job_id, decision, rule_id, details⟩] }

/-- `Repository.add_cost` (lines 141–164): append a ledger row and fold the
cost into the job's accumulator in one commit.  `cost_ledger.job_id` carries a
foreign key to `jobs.job_id`: with no such job the commit fails and nothing
persists. -/
def add_cost (s : Store) (job_id model : String) (prompt_tokens completion_tokens : Nat)
    (cost_usd : Rat) (today : CalDate) (now : Int) : Store :=
  match get_job s job_id with
  | none => s
  | some _ =>
    { s with
      ledger := s.ledger ++ [⟨job_id, model, prompt_tokens, completion_tokens, cost_usd, today⟩]
      jobs := s.jobs.map (fun j =>
        if j.job_id == job_id then { j with cost_usd := j.cost_usd + cost_usd, updated_at := now }
        else j) }

/-- `Repository.daily_cost` (lines 166–173): sum `cost_usd` over every ledger
row whose creation date equals the target calendar date. -/
def daily_cost (s : Store) (target : CalDate) : Rat :=
  ((s.ledger.filter (fun row => row.created_date == target)).map
    (fun row => row.cost_usd)).sum

/-- `Repository.monthly_cost` (lines 175–189): sum `cost_usd` over every
ledger row created in the target calendar month. -/
def monthly_cost (s : Store) (target_year target_month : Nat) : Rat :=
  ((s.ledger.filter (fun row =>
      row.created_date.year == target_year && row.created_date.month == target_month)).map
    (fun row => row.cost_usd)).sum

/-- `Repository.latest_job_for_issue` (lines 52–60): the job for the
`(repo, issue_number)` pair with the greatest `created_at`. -/
def latest_job_for_issue (s : Store) (repo : String) (issue_number : Nat) : Option Job :=
  (s.jobs.filter (fun j => j.repo == repo && j.issue_number == issue_number)).foldl
    (fun acc j =>
      match acc with
      | none => some j
      | some a => if a.created_at < j.created_at then some j else some a) none

/-- `Repository.get_repo_profile` (lines 224–225). -/
def get_repo_profile (s : Store) (repo : String) : Option RepoProfile :=
  s.repo_profiles.find? (fun p => p.repo == repo)

/-! ## Cost bookkeeping across Repository operations (C7) -/

/-- Sum of `cost_usd` over the ledger rows of one job. -/
def ledgerSumL (rows : List CostLedgerRow) (job_id : String) : Rat :=
  ((rows.filter (fun row => row.job_id == job_id)).map (fun row => row.cost_usd)).sum

/-- Sum of `cost_usd` over a job's `CostLedger` rows in a store. -/
def ledgerSum (s : Store) (job_id : String) : Rat := ledgerSumL s.ledger job_id

/-- The mutating Repository operations exercised by the runner and the
coordinator, as one step language. -/
inductive RepoOp where
  | createJob (spec : JobSpecV1)
  | updateJobStatus (job_id : String) (status : JobStatus)
      (stage reason pr_url : Option String) (now : Int)
  | addJobEvent (job_id stage event_type message : String)
  | addApproval (job_id : String) (action : ApprovalAction) (actor : String)
      (approved : Bool) (reason : Option String)
  | addPolicyAudit (job_id decision rule_id details : String)
  | addCost (job_id model : String) (prompt_tokens completion_tokens : Nat)
      (cost_usd : Rat) (today : CalDate) (now : Int)
deriving DecidableEq, Repr

def applyOp (s : Store) : RepoOp → Store
  | .createJob spec => create_job s spec
  | .updateJobStatus job_id status stage reason pr_url now =>
      update_job_status s job_id status stage reason pr_url now
  | .addJobEvent job_id stage event_type message => add_job_event s job_id stage event_type message
  | .addApproval job_id action actor approved reason =>
      add_approval s job_id action actor approved reason
  | .addPolicyAudit job_id decision rule_id details =>
      add_policy_audit s job_id decision rule_id details
  | .addCost job_id model prompt_tokens completion_tokens cost_usd today now =>
      add_cost s job_id model prompt_tokens completion_tokens cost_usd today now

def applyOps (ops : List RepoOp) (s : Store) : Store := ops.foldl applyOp s

/-- Every job's accumulator matches its ledger rows, and every ledger row
belongs to an existing job (the `cost_ledger.job_id` foreign key). -/
def costInvariant (s : Store) : Prop :=
  (∀ j ∈ s.jobs, j.cost_usd = ledgerSum s j.job_id) ∧
    ∀ row ∈ s.ledger, (get_job s row.job_id).isSome

/-- The cost a ledger-facing operation adds; only `add_cost` charges. -/
def opCostNonneg : RepoOp → Prop
  | .addCost _ _ _ _ cost_usd _ _ => 0 ≤ cost_usd
  | _ => True

/-- The job's accumulator as stored (0 when the job is absent). -/
def jobCost (s : Store) (job_id : String) : Rat :=
  match get_job s job_id with
  | some j => j.cost_usd
  | none => 0

lemma find?_map_pred {α : Type} (g : α → α) (p : α → Bool) (hp : ∀ a, p (g a) = p a)
    (l : List α) : (l.map g).find? p = (l.find? p).map g := by
  induction l with
  | nil => rfl
  | cons a as ih =>
    simp only [List.map_cons, List.find?_cons, hp]
    cases hpa : p a <;> simp [hpa, ih]

lemma ledgerSumL_append (rows rows₂ : List CostLedgerRow) (job_id : String) :
    ledgerSumL (rows ++ rows₂) job_id = ledgerSumL rows job_id + ledgerSumL rows₂ job_id := by
  simp [ledgerSumL, List.filter_append]

lemma ledgerSumL_eq_zero {rows : List CostLedgerRow} {job_id : String}
    (h : ∀ row ∈ rows, ¬(row.job_id == job_id)) : ledgerSumL rows job_id = 0 := by
  rw [ledgerSumL, List.filter_eq_nil_iff.mpr h]
  rfl

lemma ledgerSumL_singleton (row : CostLedgerRow) (job_id : String) (h : row.job_id = job_id) :
    ledgerSumL [row] job_id = row.cost_usd := by
  simp [ledgerSumL, h]

lemma applyStatusUpdate_job_id (status : JobStatus) (stage reason pr_url : Option String)
    (now : Int) (j : Job) :
    (applyStatusUpdate status stage reason pr_url now j).job_id = j.job_id := by
  unfold applyStatusUpdate
  cases stage <;> cases reason <;> cases pr_url <;> dsimp only <;> split <;> rfl

lemma applyStatusUpdate_cost_usd (status : JobStatus) (stage reason pr_url : Option String)
    (now : Int) (j : Job) :
    (applyStatusUpdate status stage reason pr_url now j).cost_usd = j.cost_usd := by
  unfold applyStatusUpdate
  cases stage <;> cases reason <;> cases pr_url <;> dsimp only <;> split <;> rfl

lemma costInvariant_applyOp {s : Store} (h : costInvariant s) (op : RepoOp) :
    costInvariant (applyOp s op) := by
  obtain ⟨hsum, hfk⟩ := h
  cases op with
  | createJob spec =>
    simp only [applyOp, create_job]
    split
    · exact ⟨hsum, hfk⟩
    · rename_i hnew
      constructor
      · intro j hj
        simp only [add_job_event, ledgerSum] at *
        rcases List.mem_append.mp hj with hin | hin
        · exact hsum j hin
        · have hj' : j.job_id = spec.job_id := by
            simp only [List.mem_singleton] at hin
            subst hin
            rfl
          have hcost : j.cost_usd = 0 := by
            simp only [List.mem_singleton] at hin
            subst hin
            rfl
          rw [hcost, hj']
          refine (ledgerSumL_eq_zero fun row hrow hmatch => ?_).symm
          have : (get_job s row.job_id).isSome := hfk row hrow
          rw [show row.job_id = spec.job_id from by simpa using hmatch] at this
          simp [this] at hnew
      · intro row hrow
        simp only [add_job_event] at *
        have := hfk row hrow
        simp only [get_job] at *
        rw [List.find?_append]
        cases hfind : s.jobs.find? (fun j => j.job_id == row.job_id)
        · rw [hfind] at this
          simp at this
        · simp [hfind]
  | updateJobStatus job_id status stage reason pr_url now =>
    set g := fun j => if j.job_id == job_id then applyStatusUpdate status stage reason pr_url now j
      else j with hg
    have hgid : ∀ j : Job, (g j).job_id = j.job_id := by
      intro j
      rw [hg]
      dsimp only
      split
      · rw [applyStatusUpdate_job_id]
      · rfl
    have hgcost : ∀ j : Job, (g j).cost_usd = j.cost_usd := by
      intro j
      rw [hg]
      dsimp only
      split
      · rw [applyStatusUpdate_cost_usd]
      · rfl
    constructor
    · intro j hj
      simp only [applyOp, update_job_status, ← hg] at hj ⊢
      obtain ⟨j₀, hj₀, rfl⟩ := List.mem_map.mp hj
      rw [hgcost, hgid]
      exact hsum j₀ hj₀
    · intro row hrow
      simp only [applyOp, update_job_status, ← hg, get_job] at hrow ⊢
      rw [find?_map_pred g _ (fun a => by rw [hgid])]
      have := hfk row hrow
      simp only [get_job] at this
      simpa using this
  | addJobEvent job_id stage event_type message =>
    exact ⟨fun j hj => hsum j hj, fun row hrow => hfk row hrow⟩
  | addApproval job_id action actor approved reason =>
    exact ⟨fun j hj => hsum j hj, fun row hrow => hfk row hrow⟩
  | addPolicyAudit job_id decision rule_id details =>
    exact ⟨fun j hj => hsum j hj, fun row hrow => hfk row hrow⟩
  | addCost job_id model prompt_tokens completion_tokens cost_usd today now =>
    simp only [applyOp, add_cost]
    cases hget : get_job s job_id with
    | none => exact ⟨hsum, hfk⟩
    | some j₀ =>
      set g := (fun j : Job => if j.job_id == job_id then
          { j with cost_usd := j.cost_usd + cost_usd, updated_at := now } else j) with hg
      have hgid : ∀ j : Job, (g j).job_id = j.job_id := by
        intro j
        rw [hg]
        dsimp only
        split <;> rfl
      constructor
      · intro j hj
        simp only [ledgerSum] at hj ⊢
        obtain ⟨j₁, hj₁, rfl⟩ := List.mem_map.mp hj
        rw [hgid, ledgerSumL_append]
        by_cases hid : j₁.job_id == job_id
        · have hj₁id : j₁.job_id = job_id := eq_of_beq hid
          have hgj : g j₁ = { j₁ with cost_usd := j₁.cost_usd + cost_usd, updated_at := now } := by
            rw [hg]
            dsimp only
            rw [if_pos hid]
          rw [hgj]
          have hmatch : ledgerSumL [⟨job_id, model, prompt_tokens, completion_tokens,
              cost_usd, today⟩] j₁.job_id = cost_usd := by
            rw [hj₁id]
            exact ledgerSumL_singleton
              ⟨job_id, model, prompt_tokens, completion_tokens, cost_usd, today⟩ job_id rfl
          rw [hmatch]
          have := hsum j₁ hj₁
          simp only [ledgerSum] at this
          rw [this]
        · have hgj : g j₁ = j₁ := by
            rw [hg]
            dsimp only
            rw [if_neg hid]
          rw [hgj]
          have hnomatch : ledgerSumL [⟨job_id, model, prompt_tokens, completion_tokens,
              cost_usd, today⟩] j₁.job_id = 0 := by
            refine ledgerSumL_eq_zero fun row hrow hm => ?_
            simp only [List.mem_singleton] at hrow
            subst hrow
            exact hid (beq_iff_eq.mpr (eq_of_beq hm).symm)
          rw [hnomatch, add_zero]
          exact hsum j₁ hj₁
      · intro row hrow
        show ((List.map g s.jobs).find? (fun j => j.job_id == row.job_id)).isSome = true
        rw [find?_map_pred g _ (fun a => by rw [hgid])]
        have hrow' : row ∈ s.ledger ++
            [⟨job_id, model, prompt_tokens, completion_tokens, cost_usd, today⟩] := hrow
        rcases List.mem_append.mp hrow' with hin | hin
        · have h2 := hfk row hin
          rw [get_job] at h2
          rcases hfind : s.jobs.find? (fun j => j.job_id == row.job_id) with _ | j
          · rw [hfind] at h2
            simp at h2
          · simp [hfind]
        · simp only [List.mem_singleton] at hin
          subst hin
          rw [get_job] at hget
          simp [hget]

lemma costInvariant_applyOps (ops : List RepoOp) {s : Store} (h : costInvariant s) :
    costInvariant (applyOps ops s) := by
  induction ops generalizing s with
  | nil => exact h
  | cons op rest ih => exact ih (costInvariant_applyOp h op)

lemma jobCost_applyOp_mono (s : Store) (op : RepoOp) (h : opCostNonneg op) (job_id : String) :
    jobCost s job_id ≤ jobCost (applyOp s op) job_id := by
  cases op with
  | createJob spec =>
    simp only [applyOp, create_job]
    split
    · exact le_refl _
    · simp only [jobCost, add_job_event, get_job, List.find?_append]
      cases hfind : s.jobs.find? (fun j => j.job_id == job_id) with
      | some j => simp
      | none =>
        simp only [Option.none_or]
        split
        · rename_i j heq
          have hmem := List.mem_of_find?_eq_some heq
          simp only [List.mem_singleton] at hmem
          subst hmem
          simp
        · exact le_refl _
  | updateJobStatus jid status stage reason pr_url now =>
    simp only [applyOp, update_job_status, jobCost, get_job]
    rw [find?_map_pred _ _ (fun a => by
      split
      · rw [applyStatusUpdate_job_id]
      · rfl)]
    cases hfind : s.jobs.find? (fun j => j.job_id == job_id) with
    | none => exact le_refl _
    | some j =>
      simp only [Option.map_some']
      split
      · rw [applyStatusUpdate_cost_usd]
      · exact le_refl _
  | addJobEvent jid stage event_type message => exact le_refl _
  | addApproval jid action actor approved reason => exact le_refl _
  | addPolicyAudit jid decision rule_id details => exact le_refl _
  | addCost jid model prompt_tokens completion_tokens cost_usd today now =>
    simp only [applyOp, add_cost]
    cases hget : get_job s jid with
    | none => exact le_refl _
    | some j₀ =>
      simp only [jobCost, get_job]
      rw [find?_map_pred _ _ (fun a => by
        split <;> rfl)]
      cases hfind : s.jobs.find? (fun j => j.job_id == job_id) with
      | none => exact le_refl _
      | some j =>
        simp only [Option.map_some']
        split
        · have hc : (0 : Rat) ≤ cost_usd := h
          show j.cost_usd ≤ j.cost_usd + cost_usd
          linarith
        · exact le_refl _

lemma jobCost_applyOps_mono (more : List RepoOp) (s : Store)
    (h : ∀ op ∈ more, opCostNonneg op) (job_id : String) :
    jobCost s job_id ≤ jobCost (applyOps more s) job_id := by
  induction more generalizing s with
  | nil => exact le_refl _
  | cons op rest ih =>
    calc jobCost s job_id ≤ jobCost (applyOp s op) job_id :=
          jobCost_applyOp_mono s op (h op (List.mem_cons_self op rest)) job_id
      _ ≤ jobCost (applyOps rest (applyOp s op)) job_id :=
          ih (applyOp s op) (fun o ho => h o (List.mem_cons_of_mem _ ho))

/-- C7: After every completed Repository operation, each Job's `cost_usd`
equals the sum of `cost_usd` over that job's CostLedger rows within 1e-6,
and — given every charged `cost_usd` is nonnegative — `Job.cost_usd` is
monotone non-decreasing across the sequence of operations. -/
theorem repository_cost_invariant :
    (∀ (ops : List RepoOp) (j : Job), j ∈ (applyOps ops {}).jobs →
        |j.cost_usd - ledgerSum (applyOps ops {}) j.job_id| ≤ 1 / 1000000) ∧
      ∀ (ops more : List RepoOp) (job_id : String), (∀ op ∈ more, opCostNonneg op) →
        jobCost (applyOps ops {}) job_id ≤ jobCost (applyOps (ops ++ more) {}) job_id := by
  constructor
  · intro ops j hj
    have hinv : costInvariant (applyOps ops {}) :=
      costInvariant_applyOps ops ⟨by simp, by simp [Store.mk]⟩
    rw [hinv.1 j hj]
    simp
  · intro ops more job_id h
    have hsplit : applyOps (ops ++ more) ({} : Store) = applyOps more (applyOps ops {}) := by
      simp [applyOps, List.foldl_append]
    rw [hsplit]
    exact jobCost_applyOps_mono more (applyOps ops {}) h job_id

def c7ExampleDate : CalDate := ⟨2026, 10, 12⟩

def c7ExampleSpec : JobSpecV1 :=
  { job_id := "j1", repo := "acme/repo", issue_number := 7, created_at := 100 }

def c7ExampleOps : List RepoOp :=
  [.createJob c7ExampleSpec, .addCost "j1" "gpt" 10 20 (1/2) c7ExampleDate 150]

def c7ExampleJob : Job :=
  { job_id := "j1"
    repo := "acme/repo"
    issue_number := 7
    base_branch := "main"
    risk_class := .code
    status := .queued
    model_profile := "build"
    requires_approval := [.merge]
    allowed_paths := []
    acceptance_commands := []
    artifact_contract :=
      ["plan.md", "patch.diff", "test.log", "review.md", "cost.json", "run.jsonl"]
    caps_max_minutes := 45
    caps_max_iterations := 8
    caps_max_usd := 3
    created_by := "system"
    created_at := 100
    updated_at := 150
    cost_usd := 1/2 }

lemma c7ExampleOps_jobs : (applyOps c7ExampleOps {}).jobs = [c7ExampleJob] := by
  simp [c7ExampleOps, applyOps, applyOp, create_job, get_job, add_cost, add_job_event,
    c7ExampleSpec, c7ExampleJob]

/-- C7 witness: the invariant and the monotonicity evaluated on a concrete
create-then-charge operation sequence. -/
theorem repository_cost_invariant_witness :
    c7ExampleJob ∈ (applyOps c7ExampleOps {}).jobs ∧
      |c7ExampleJob.cost_usd - ledgerSum (applyOps c7ExampleOps {}) c7ExampleJob.job_id| ≤
        1 / 1000000 ∧
      jobCost (applyOps [RepoOp.createJob c7ExampleSpec] {}) "j1" ≤
        jobCost (applyOps ([RepoOp.createJob c7ExampleSpec] ++
          [RepoOp.addCost "j1" "gpt" 10 20 (1/2) c7ExampleDate 150]) {}) "j1" :=
  ⟨by rw [c7ExampleOps_jobs]; exact List.mem_singleton_self _,
    repository_cost_invariant.1 c7ExampleOps c7ExampleJob
      (by rw [c7ExampleOps_jobs]; exact List.mem_singleton_self _),
    repository_cost_invariant.2 [RepoOp.createJob c7ExampleSpec]
      [RepoOp.addCost "j1" "gpt" 10 20 (1/2) c7ExampleDate 150] "j1"
      (fun op hop => by
        simp only [List.mem_singleton] at hop
        subst hop
        show (0 : Rat) ≤ 1/2
        norm_num)⟩

/-! ## Spend governor — `job_runner.py` `_check_spend_caps` (lines 127–141)

`_check_spend_caps` computes `today = date.today().isoformat()` and
`month = date.today().strftime("%Y-%m")`: `date.today()` is the **host-local**
calendar date, while ledger rows are stamped with UTC timestamps, so the
window key is the local date applied to UTC-dated rows.  The clock therefore
carries both calendar dates. -/

/-- The two budget caps read from `Settings`. -/
structure SpendSettings where
  max_usd_per_day : Rat
  max_usd_per_month : Rat
deriving DecidableEq, Repr

/-- The wall clock at the moment of the check: the UTC calendar date and the
host-local calendar date (`date.today()`). -/
structure Clock where
  utcToday : CalDate
  localToday : CalDate
deriving DecidableEq, Repr

/-- `_check_spend_caps`: `None` = check passes, `some code` = the
`RuntimeError` code raised.  The job argument is the caller's
`repo.get_job(job_id)` result. -/
def check_spend_caps (s : Store) (settings : SpendSettings) (clock : Clock)
    (job : Option Job) : Option String :=
  match job with
  | none => some "JOB_NOT_FOUND"
  | some job =>
    let daily := daily_cost s clock.localToday
    let monthly := monthly_cost s clock.localToday.year clock.localToday.month
    if settings.max_usd_per_day < daily then some "CAP_DAILY_BUDGET_EXCEEDED"
    else if settings.max_usd_per_month < monthly then some "CAP_MONTHLY_BUDGET_EXCEEDED"
    else if job.caps_max_usd < job.cost_usd then some "CAP_COST_EXCEEDED"
    else none

/-- A store with a single ledger row of 2 USD dated 2026-10-12 (UTC). -/
def c3Store : Store := { ledger := [⟨"j1", "gpt", 1, 1, 2, ⟨2026, 10, 12⟩⟩] }

/-- A job with zero spend against a 1 USD per-job cap. -/
def c3Job : Job :=
  { job_id := "j1", repo := "acme/repo", issue_number := 7, base_branch := "main"
    risk_class := .code, status := .running, model_profile := "build"
    requires_approval := [.merge], allowed_paths := [], acceptance_commands := []
    artifact_contract := [], caps_max_minutes := 45, caps_max_iterations := 8
    caps_max_usd := 1, created_by := "system", created_at := 0, updated_at := 0 }

/-- A store with a single 50 USD row dated 2026-10-13 (UTC). -/
def c3StoreSkew : Store := { ledger := [⟨"j1", "gpt", 1, 1, 50, ⟨2026, 10, 13⟩⟩] }

/-- C3 (counterexample): the per-code "if and only if" reading fails twice on
the code. (1) With both the daily and the monthly sums over their caps the
check raises `CAP_DAILY_BUDGET_EXCEEDED`, not `CAP_MONTHLY_BUDGET_EXCEEDED`,
although the monthly condition holds.  (2) The window key is the host-local
calendar date: across a UTC/local date boundary, a ledger row that puts
today's **UTC** sum over the daily cap raises nothing. -/
theorem check_spend_caps_cex :
    (check_spend_caps c3Store ⟨1, 1⟩ ⟨⟨2026, 10, 12⟩, ⟨2026, 10, 12⟩⟩ (some c3Job) =
        some "CAP_DAILY_BUDGET_EXCEEDED" ∧
      (1 : Rat) < monthly_cost c3Store 2026 10) ∧
      check_spend_caps c3StoreSkew ⟨40, 1000⟩ ⟨⟨2026, 10, 13⟩, ⟨2026, 10, 12⟩⟩ (some c3Job) =
          none ∧
        (40 : Rat) < daily_cost c3StoreSkew ⟨2026, 10, 13⟩ := by
  refine ⟨⟨?_, ?_⟩, ?_, ?_⟩ <;>
    norm_num [check_spend_caps, daily_cost, monthly_cost, c3Store, c3StoreSkew, c3Job]

/-- C3 (amended): the checks run in priority order on the host-local calendar
date and month (applied to the rows' UTC dates): `JOB_NOT_FOUND` iff the job
is missing; else `CAP_DAILY_BUDGET_EXCEEDED` iff the local-today ledger sum
strictly exceeds `max_usd_per_day`; else `CAP_MONTHLY_BUDGET_EXCEEDED` iff
the local-month sum strictly exceeds `max_usd_per_month`; else
`CAP_COST_EXCEEDED` iff `job.cost_usd > caps.max_usd`; equality at any cap
passes. -/
theorem check_spend_caps_characterization (s : Store) (settings : SpendSettings)
    (clock : Clock) (j : Job) :
    check_spend_caps s settings clock none = some "JOB_NOT_FOUND" ∧
      (check_spend_caps s settings clock (some j) = some "CAP_DAILY_BUDGET_EXCEEDED" ↔
        settings.max_usd_per_day < daily_cost s clock.localToday) ∧
      (check_spend_caps s settings clock (some j) = some "CAP_MONTHLY_BUDGET_EXCEEDED" ↔
        daily_cost s clock.localToday ≤ settings.max_usd_per_day ∧
          settings.max_usd_per_month <
            monthly_cost s clock.localToday.year clock.localToday.month) ∧
      (check_spend_caps s settings clock (some j) = some "CAP_COST_EXCEEDED" ↔
        daily_cost s clock.localToday ≤ settings.max_usd_per_day ∧
          monthly_cost s clock.localToday.year clock.localToday.month ≤
            settings.max_usd_per_month ∧
          j.caps_max_usd < j.cost_usd) ∧
      (check_spend_caps s settings clock (some j) = none ↔
        daily_cost s clock.localToday ≤ settings.max_usd_per_day ∧
          monthly_cost s clock.localToday.year clock.localToday.month ≤
            settings.max_usd_per_month ∧
          j.cost_usd ≤ j.caps_max_usd) := by
  refine ⟨rfl, ?_, ?_, ?_, ?_⟩ <;>
    · simp only [check_spend_caps]
      split_ifs with h1 h2 h3 <;> simp_all

/-! ## Dispatch — `job_runner.py` `process_job` (lines 144–196)

The prefix of `process_job` up to the first stage: load job, append
`job_start` to `run.jsonl`, kill-switch gate, terminal-status short-circuit,
pre-gate approval check, transition to running.  Stage bodies call external
services and are out of this prefix. -/

/-- One record appended to `run.jsonl`. -/
inductive RunRecord where
  | job_start (job_id : String) (status : JobStatus)
  | stage_start (stage : String)
  | job_completed
  | job_failed (error : String)
  | job_waiting_approval
deriving DecidableEq, Repr

/-- The worker-visible state: the job store, the queue-backend value stored
under the key `agents_enabled`, and the dispatched job's `run.jsonl`. -/
structure World where
  store : Store
  agentsFlag : Option String := none
  runlog : List RunRecord := []
deriving DecidableEq, Repr

/-- `set_kill_switch` (`queueing.py` lines 106–107). -/
def set_kill_switch (w : World) (enabled : Bool) : World :=
  { w with agentsFlag := some (if enabled then "true" else "false") }

/-- `_require_approval` (`job_runner.py` lines 117–124): infra, secrets and
destructive risk each require their own approval action; any other risk
class passes. -/
def require_approval (s : Store) (job_id : String) (risk_class : RiskClass) : Bool :=
  match risk_class with
  | .infra => has_approval s job_id .infra
  | .secrets => has_approval s job_id .secrets
  | .destructive => has_approval s job_id .destructive
  | _ => true

/-- Where the dispatch prefix handed control. -/
inductive DispatchOutcome where
  | jobMissing
  | killSwitch
  | terminalNoop
  | awaitingApproval
  | proceedToStages
deriving DecidableEq, Repr

/-- The dispatch prefix of `process_job` (lines 157–198). -/
def process_job_dispatch (w : World) (job_id : String) (now : Int) :
    World × DispatchOutcome :=
  match get_job w.store job_id with
  | none => (w, .jobMissing)
  | some job =>
    let w := { w with runlog := w.runlog ++ [RunRecord.job_start job_id job.status] }
    if ¬ agents_enabled w.agentsFlag then
      let store := update_job_status w.store job_id .failed (some "dispatch")
        (some "KILL_SWITCH_ACTIVE") none now
      let store := add_job_event store job_id "dispatch" "failed" "Kill switch active."
      ({ w with store := store }, .killSwitch)
    else if job.status = .completed ∨ job.status = .rejected then
      (w, .terminalNoop)
    else if ¬ require_approval w.store job_id job.risk_class then
      let store := update_job_status w.store job_id .awaiting_approval (some "approval")
        none none now
      let store := add_job_event store job_id "approval" "waiting"
        ("Approval required for risk class " ++ job.risk_class.value ++ ".")
      ({ w with store := store }, .awaitingApproval)
    else
      ({ w with
          store := update_job_status w.store job_id .running (some "triage") none none now },
        .proceedToStages)

/-- The `except` handler of `process_job` (lines 508–519): re-read the job;
if it is awaiting approval, only append `job_waiting_approval` to the run
log; otherwise flip it to failed with the error message as reason, emit a
`<stage>/failed` event, and append `job_failed`. -/
def handle_stage_error (s : Store) (runlog : List RunRecord) (job_id message : String)
    (now : Int) : Store × List RunRecord :=
  match get_job s job_id with
  | some latest =>
    if latest.status = .awaiting_approval then
      (s, runlog ++ [RunRecord.job_waiting_approval])
    else
      let s := update_job_status s job_id .failed latest.current_stage (some message) none now
      let s := add_job_event s job_id (latest.current_stage.getD "unknown") "failed" message
      (s, runlog ++ [RunRecord.job_failed message])
  | none => (s, runlog ++ [RunRecord.job_failed message])

lemma get_job_update_job_status (s : Store) (job_id : String) (status : JobStatus)
    (stage reason pr_url : Option String) (now : Int) :
    get_job (update_job_status s job_id status stage reason pr_url now) job_id =
      (get_job s job_id).map (applyStatusUpdate status stage reason pr_url now) := by
  simp only [get_job, update_job_status]
  rw [find?_map_pred _ _ (fun a => by
    split
    · rw [applyStatusUpdate_job_id]
    · rfl)]
  cases hfind : s.jobs.find? (fun j => j.job_id == job_id) with
  | none => rfl
  | some j =>
    have hp := List.find?_some hfind
    have heq : j.job_id = job_id := eq_of_beq hp
    simp [heq]

lemma applyStatusUpdate_status (status : JobStatus) (stage reason pr_url : Option String)
    (now : Int) (j : Job) :
    (applyStatusUpdate status stage reason pr_url now j).status = status := by
  unfold applyStatusUpdate
  cases stage <;> cases reason <;> cases pr_url <;> dsimp only <;> split <;> rfl

lemma get_job_add_job_event (s : Store) (a b c d : String)
    (m : Option (List (String × String))) (job_id : String) :
    get_job (add_job_event s a b c d m) job_id = get_job s job_id := rfl

lemma update_job_status_events (s : Store) (job_id : String) (status : JobStatus)
    (stage reason pr_url : Option String) (now : Int) :
    (update_job_status s job_id status stage reason pr_url now).events = s.events := rfl

/-- A completed job, as stored. -/
def c1Job : Job :=
  { job_id := "j1", repo := "acme/repo", issue_number := 7, base_branch := "main"
    risk_class := .code, status := .completed, model_profile := "build"
    requires_approval := [.merge], allowed_paths := [], acceptance_commands := []
    artifact_contract := [], caps_max_minutes := 45, caps_max_iterations := 8
    caps_max_usd := 3, created_by := "system", created_at := 0, updated_at := 0 }

/-- A world holding only the completed job, with the kill switch set (flag
value `"false"`). -/
def c1World : World := { store := { jobs := [c1Job] }, agentsFlag := some "false" }

/-- C1 (code bug): `process_job` checks the kill switch (line 178) **before**
the terminal-status short-circuit (line 184), so dispatching an
already-completed job while the kill switch is active mutates it: the status
flips from completed to failed with reason `KILL_SWITCH_ACTIVE` and a new
`dispatch`/`failed` JobEvent is written — the claim (and the spec's
terminal-immutability invariant) requires the dispatch to return with no
mutation regardless of the flag. -/
theorem process_job_terminal_killswitch_mutation :
    (get_job c1World.store "j1").map Job.status = some JobStatus.completed ∧
      (process_job_dispatch c1World "j1" 0).2 = DispatchOutcome.killSwitch ∧
      (get_job (process_job_dispatch c1World "j1" 0).1.store "j1").map Job.status =
        some JobStatus.failed ∧
      (get_job (process_job_dispatch c1World "j1" 0).1.store "j1").map Job.failure_reason =
        some (some "KILL_SWITCH_ACTIVE") ∧
      (process_job_dispatch c1World "j1" 0).1.store.events =
        [⟨"j1", "dispatch", "failed", "Kill switch active.", none⟩] := by decide

/-- C5: With the kill-switch flag stored as `"false"`, any dispatched job
transitions to failed with reason `KILL_SWITCH_ACTIVE` and a
`dispatch`/`failed` event; `classify` of that reason is `safety_control`;
with the flag key absent `agents_enabled` is true and the dispatch never
takes the kill-switch branch. -/
theorem kill_switch_dispatch (w : World) (job_id : String) (job : Job) (now : Int)
    (hjob : get_job w.store job_id = some job) :
    ((process_job_dispatch (set_kill_switch w false) job_id now).2 =
        DispatchOutcome.killSwitch ∧
      (get_job (process_job_dispatch (set_kill_switch w false) job_id now).1.store
          job_id).map Job.status = some JobStatus.failed ∧
      (get_job (process_job_dispatch (set_kill_switch w false) job_id now).1.store
          job_id).map Job.failure_reason = some (some "KILL_SWITCH_ACTIVE") ∧
      (process_job_dispatch (set_kill_switch w false) job_id now).1.store.events =
        w.store.events ++ [⟨job_id, "dispatch", "failed", "Kill switch active.", none⟩]) ∧
      classify_failure_reason (some (pyStr "KILL_SWITCH_ACTIVE")) = "safety_control" ∧
      agents_enabled none = true ∧
      (w.agentsFlag = none →
        (process_job_dispatch w job_id now).2 ≠ DispatchOutcome.killSwitch) := by
  have hjob' : get_job (set_kill_switch w false).store job_id = some job := hjob
  have hflag : agents_enabled (set_kill_switch w false).agentsFlag = false := rfl
  have hred : process_job_dispatch (set_kill_switch w false) job_id now =
      ({ set_kill_switch w false with
          store := add_job_event
            (update_job_status (set_kill_switch w false).store job_id .failed
              (some "dispatch") (some "KILL_SWITCH_ACTIVE") none now)
            job_id "dispatch" "failed" "Kill switch active."
          runlog := (set_kill_switch w false).runlog ++
            [RunRecord.job_start job_id job.status] },
        DispatchOutcome.killSwitch) := by
    simp [process_job_dispatch, hjob', hflag]
  refine ⟨⟨?_, ?_, ?_, ?_⟩, by decide, by decide, ?_⟩
  · rw [hred]
  · rw [hred]
    simp only [get_job_add_job_event, get_job_update_job_status, hjob', Option.map_some']
    rw [applyStatusUpdate_status]
  · rw [hred]
    simp only [get_job_add_job_event, get_job_update_job_status, hjob', Option.map_some']
    simp [applyStatusUpdate]
  · rw [hred]
    simp [add_job_event, update_job_status_events, set_kill_switch]
  · intro hnone
    have hen : agents_enabled w.agentsFlag = true := by rw [hnone]; rfl
    simp only [process_job_dispatch, hjob, hen]
    split_ifs <;> simp_all

/-- A queued infra-risk job with no approvals on file. -/
def c5Job : Job :=
  { job_id := "j5", repo := "acme/repo", issue_number := 8, base_branch := "main"
    risk_class := .infra, status := .queued, model_profile := "build"
    requires_approval := [.infra, .merge], allowed_paths := [], acceptance_commands := []
    artifact_contract := [], caps_max_minutes := 45, caps_max_iterations := 8
    caps_max_usd := 3, created_by := "system", created_at := 0, updated_at := 0 }

def c5World : World := { store := { jobs := [c5Job] } }

/-- C5 witness: the kill-switch dispatch evaluated on a concrete world. -/
theorem kill_switch_dispatch_witness :
    (process_job_dispatch (set_kill_switch c5World false) "j5" 0).2 =
      DispatchOutcome.killSwitch :=
  (kill_switch_dispatch c5World "j5" c5Job 0 (by decide)).1.1

/-- C2: Under an enabled kill switch and a non-terminal job: a missing
matching approval for infra/secrets/destructive risk makes the pre-gate
fail, and a failed pre-gate sends the job to `awaiting_approval` (not
running) with exactly one new `approval`/`waiting` event and no stage
reached; code and deps risk always pass the pre-gate and the job proceeds
to running. -/
theorem pre_gate_blocks_unapproved_risk (w : World) (job_id : String) (job : Job) (now : Int)
    (hjob : get_job w.store job_id = some job)
    (hen : agents_enabled w.agentsFlag = true)
    (hterm : ¬(job.status = JobStatus.completed ∨ job.status = JobStatus.rejected)) :
    ((job.risk_class = .infra ∧ has_approval w.store job_id .infra = false ∨
        job.risk_class = .secrets ∧ has_approval w.store job_id .secrets = false ∨
        job.risk_class = .destructive ∧ has_approval w.store job_id .destructive = false) →
      require_approval w.store job_id job.risk_class = false) ∧
      (require_approval w.store job_id job.risk_class = false →
        (process_job_dispatch w job_id now).2 = DispatchOutcome.awaitingApproval ∧
        (get_job (process_job_dispatch w job_id now).1.store job_id).map Job.status =
          some JobStatus.awaiting_approval ∧
        (process_job_dispatch w job_id now).1.store.events = w.store.events ++
          [⟨job_id, "approval", "waiting",
            "Approval required for risk class " ++ job.risk_class.value ++ ".", none⟩]) ∧
      ((job.risk_class = .code ∨ job.risk_class = .deps) →
        require_approval w.store job_id job.risk_class = true ∧
        (process_job_dispatch w job_id now).2 = DispatchOutcome.proceedToStages ∧
        (get_job (process_job_dispatch w job_id now).1.store job_id).map Job.status =
          some JobStatus.running) := by
  refine ⟨?_, ?_, ?_⟩
  · rintro (⟨hr, ha⟩ | ⟨hr, ha⟩ | ⟨hr, ha⟩) <;> rw [hr] <;> exact ha
  · intro hreq
    have hred : process_job_dispatch w job_id now =
        ({ w with
            store := add_job_event
              (update_job_status w.store job_id .awaiting_approval (some "approval")
                none none now)
              job_id "approval" "waiting"
              ("Approval required for risk class " ++ job.risk_class.value ++ ".")
            runlog := w.runlog ++ [RunRecord.job_start job_id job.status] },
          DispatchOutcome.awaitingApproval) := by
      simp [process_job_dispatch, hjob, hen, hterm, hreq]
    refine ⟨?_, ?_, ?_⟩
    · rw [hred]
    · rw [hred]
      simp only [get_job_add_job_event, get_job_update_job_status, hjob, Option.map_some']
      rw [applyStatusUpdate_status]
    · rw [hred]
      simp [add_job_event, update_job_status_events]
  · intro hrisk
    have hreq : require_approval w.store job_id job.risk_class = true := by
      rcases hrisk with hr | hr <;> rw [hr] <;> rfl
    have hred : process_job_dispatch w job_id now =
        ({ w with
            store := update_job_status w.store job_id .running (some "triage") none none now
            runlog := w.runlog ++ [RunRecord.job_start job_id job.status] },
          DispatchOutcome.proceedToStages) := by
      simp [process_job_dispatch, hjob, hen, hterm, hreq]
    refine ⟨hreq, ?_, ?_⟩
    · rw [hred]
    · rw [hred]
      simp only [get_job_update_job_status, hjob, Option.map_some']
      rw [applyStatusUpdate_status]

/-- A queued destructive-risk job with no approvals on file. -/
def c2Job : Job :=
  { job_id := "j2", repo := "acme/repo", issue_number := 9, base_branch := "main"
    risk_class := .destructive, status := .queued, model_profile := "build"
    requires_approval := [.destructive, .merge], allowed_paths := [], acceptance_commands := []
    artifact_contract := [], caps_max_minutes := 45, caps_max_iterations := 8
    caps_max_usd := 3, created_by := "system", created_at := 0, updated_at := 0 }

def c2World : World := { store := { jobs := [c2Job] } }

/-- C2 witness: the unapproved destructive job lands in awaiting_approval. -/
theorem pre_gate_blocks_unapproved_risk_witness :
    (process_job_dispatch c2World "j2" 0).2 = DispatchOutcome.awaitingApproval :=
  ((pre_gate_blocks_unapproved_risk c2World "j2" c2Job 0 (by decide) (by decide)
      (by decide)).2.1
    ((pre_gate_blocks_unapproved_risk c2World "j2" c2Job 0 (by decide) (by decide)
      (by decide)).1 (by decide))).1

/-- A running job mid-stage (current stage `triage`), no failure recorded. -/
def c4Job : Job :=
  { job_id := "j4", repo := "acme/repo", issue_number := 4, base_branch := "main"
    risk_class := .code, status := .running, model_profile := "build"
    requires_approval := [.merge], allowed_paths := [], acceptance_commands := []
    artifact_contract := [], caps_max_minutes := 45, caps_max_iterations := 8
    caps_max_usd := 3, created_by := "system", created_at := 0, updated_at := 0
    current_stage := some "triage" }

def c4Store : Store := { jobs := [c4Job] }

/-- C4 (counterexample): `update_job_status` guards the reason with a Python
truthiness test (`if reason:`), so an error whose message is the empty
string flips the job to failed but does **not** record the message as
`failure_reason` — the claim's "recorded verbatim" fails for `str(exc) = ""`. -/
theorem handle_stage_error_empty_message_cex :
    (get_job (handle_stage_error c4Store [] "j4" "" 0).1 "j4").map Job.status =
        some JobStatus.failed ∧
      (get_job (handle_stage_error c4Store [] "j4" "" 0).1 "j4").map Job.failure_reason =
        some none := by decide

/-- C4 (amended): on an error raised inside a stage the runner re-reads the
job: if the status is `awaiting_approval` the store is untouched (no failed
transition, no event) and only `job_waiting_approval` is appended to
`run.jsonl`; otherwise the status becomes failed, a
`<current stage>`/`failed` event carrying the message is emitted,
`job_failed` is appended, and the message is recorded verbatim as
`failure_reason` whenever it is non-empty (an empty message leaves the prior
`failure_reason` in place). -/
theorem handle_stage_error_spec (s : Store) (runlog : List RunRecord)
    (job_id message : String) (now : Int) (latest : Job)
    (hjob : get_job s job_id = some latest) :
    (latest.status = JobStatus.awaiting_approval →
      handle_stage_error s runlog job_id message now =
        (s, runlog ++ [RunRecord.job_waiting_approval])) ∧
      (latest.status ≠ JobStatus.awaiting_approval →
        (get_job (handle_stage_error s runlog job_id message now).1 job_id).map Job.status =
            some JobStatus.failed ∧
          (message ≠ "" →
            (get_job (handle_stage_error s runlog job_id message now).1 job_id).map
              Job.failure_reason = some (some message)) ∧
          (message = "" →
            (get_job (handle_stage_error s runlog job_id message now).1 job_id).map
              Job.failure_reason = some latest.failure_reason) ∧
          (handle_stage_error s runlog job_id message now).1.events = s.events ++
            [⟨job_id, latest.current_stage.getD "unknown", "failed", message, none⟩] ∧
          (handle_stage_error s runlog job_id message now).2 =
            runlog ++ [RunRecord.job_failed message]) := by
  constructor
  · intro hwait
    simp [handle_stage_error, hjob, hwait]
  · intro hnot
    have hred : handle_stage_error s runlog job_id message now =
        (add_job_event
            (update_job_status s job_id .failed latest.current_stage (some message) none now)
            job_id (latest.current_stage.getD "unknown") "failed" message,
          runlog ++ [RunRecord.job_failed message]) := by
      simp [handle_stage_error, hjob, hnot]
    refine ⟨?_, ?_, ?_, ?_, ?_⟩
    · rw [hred]
      simp only [get_job_add_job_event, get_job_update_job_status, hjob, Option.map_some']
      rw [applyStatusUpdate_status]
    · intro hmsg
      rw [hred]
      simp only [get_job_add_job_event, get_job_update_job_status, hjob, Option.map_some']
      cases hstage : latest.current_stage <;> simp [applyStatusUpdate, hmsg]
    · intro hmsg
      rw [hred]
      simp only [get_job_add_job_event, get_job_update_job_status, hjob, Option.map_some']
      cases hstage : latest.current_stage <;> simp [applyStatusUpdate, hmsg]
    · rw [hred]
      simp [add_job_event, update_job_status_events]
    · rw [hred]

/-- C4 witness: a non-empty message on a running job is recorded verbatim. -/
theorem handle_stage_error_spec_witness :
    (get_job (handle_stage_error c4Store [] "j4" "GIT_CLONE_FAILED: auth" 0).1 "j4").map
        Job.failure_reason = some (some "GIT_CLONE_FAILED: auth") :=
  ((handle_stage_error_spec c4Store [] "j4" "GIT_CLONE_FAILED: auth" 0 c4Job
      (by decide)).2 (by decide)).2.1 (by decide)

/-! ## Intake coordinator — `orchestrator.py` -/

/-- The slice of `PolicyProfile` the coordinator reads. -/
structure PolicyModel where
  repo_allowlist : List String
  approval_matrix : List (RiskClass × List ApprovalAction) := []
  default_caps : Caps := {}
deriving DecidableEq, Repr

/-- `PolicyProfile.repo_allowed` (`policy.py` lines 33–34): exact membership. -/
def PolicyModel.repo_allowed (p : PolicyModel) (repo : String) : Bool :=
  p.repo_allowlist.contains repo

/-- `PolicyProfile.required_approvals` (`policy.py` lines 64–65): matrix
lookup with default `[merge]`. -/
def PolicyModel.required_approvals (p : PolicyModel) (risk : RiskClass) :
    List ApprovalAction :=
  match p.approval_matrix.find? (fun e => e.1 == risk) with
  | some e => e.2
  | none => [.merge]

/-- `_detect_risk` (`orchestrator.py` lines 56–65), over lowercased labels. -/
def detect_risk (labels : List String) : RiskClass :=
  if labels.contains "destructive" then .destructive
  else if labels.contains "secrets" then .secrets
  else if labels.contains "infra" then .infra
  else if labels.contains "deps" || labels.contains "dependencies" ||
      labels.contains "security" then .deps
  else .code

/-- The parsed fields of an `issues` webhook request.  Signature verification
is HMAC-SHA256 over the raw body; its boolean outcome is carried as a field. -/
structure WebhookRequest where
  sigValid : Bool
  event : Option String
  action : Option String
  repoFullName : String
  issueNumber : Option Nat
  labels : List String
  labeledName : Option String := none
deriving DecidableEq, Repr

/-- What the webhook endpoint returned. -/
inductive WebhookOutcome where
  | httpError (code : Nat) (detail : String)
  | result (accepted : Bool) (message : String) (job_id : Option String)
deriving DecidableEq, Repr

/-- Coordinator state: store, queue flag, loaded policy. -/
structure AppState where
  store : Store
  agentsFlag : Option String := none
  policy : PolicyModel
deriving DecidableEq, Repr

/-- The `is_agent_ready` computation (`orchestrator.py` lines 162–166): the
lowercased labels must contain `agent-ready`, except that a `labeled` action
requires the added label itself to be `agent-ready`. -/
def webhook_agent_ready (req : WebhookRequest) : Bool :=
  if req.action = some "labeled" then lowerStr (req.labeledName.getD "") == "agent-ready"
  else (req.labels.map lowerStr).contains "agent-ready"

/-- `github_webhook` (`orchestrator.py` lines 141–208).  `new_job_id` stands
for the fresh UUID of `JobSpecV1`; enqueueing and metrics touch the queue,
not the store. -/
def github_webhook (st : AppState) (req : WebhookRequest) (now : Int)
    (new_job_id : String) : AppState × WebhookOutcome :=
  if ¬ req.sigValid then (st, .httpError 401 "Invalid webhook signature.")
  else if ¬ agents_enabled st.agentsFlag then (st, .result false "Kill switch active." none)
  else if req.event ≠ some "issues" then (st, .result false "Event ignored." none)
  else if ¬ webhook_agent_ready req then (st, .result false "Missing agent-ready label." none)
  else if ¬ st.policy.repo_allowed req.repoFullName then
    (st, .result false ("Repo not allowlisted: " ++ req.repoFullName) none)
  else
    match req.issueNumber with
    | none => (st, .result false "Missing issue number." none)
    | some n =>
      if n = 0 then (st, .result false "Missing issue number." none)
      else
        let risk := detect_risk (req.labels.map lowerStr)
        match get_repo_profile st.store req.repoFullName with
        | none => (st, .result false ("Repo disabled: " ++ req.repoFullName) none)
        | some profile =>
          if ¬ profile.enabled then
            (st, .result false ("Repo disabled: " ++ req.repoFullName) none)
          else
            let create : AppState × WebhookOutcome :=
              let spec : JobSpecV1 :=
                { job_id := new_job_id
                  repo := req.repoFullName
                  issue_number := n
                  base_branch := profile.default_base_branch
                  risk_class := risk
                  allowed_paths := profile.allowed_paths
                  acceptance_commands := profile.acceptance_commands
                  caps := st.policy.default_caps
                  requires_approval := st.policy.required_approvals risk
                  created_by := "github-webhook"
                  created_at := now }
              ({ st with store := create_job st.store spec },
                .result true "Job queued." (some new_job_id))
            match latest_job_for_issue st.store req.repoFullName n with
            | some latest =>
              if latest.status = .queued ∨ latest.status = .running ∨
                  latest.status = .awaiting_approval then
                (st, .result false ("Job already in progress: " ++ latest.job_id) none)
              else if now - 120 ≤ latest.created_at then
                (st, .result false ("Duplicate webhook ignored: " ++ latest.job_id) none)
              else create
            | none => create

def c6Profile : RepoProfile := ⟨"acme/repo", true, "main", [], []⟩

/-- A queued prior job for `(acme/repo, #7)` created at t = 1000. -/
def c6Prior : Job :=
  { job_id := "jold", repo := "acme/repo", issue_number := 7, base_branch := "main"
    risk_class := .code, status := .queued, model_profile := "build"
    requires_approval := [.merge], allowed_paths := [], acceptance_commands := []
    artifact_contract := [], caps_max_minutes := 45, caps_max_iterations := 8
    caps_max_usd := 3, created_by := "github-webhook", created_at := 1000
    updated_at := 1000 }

def c6Policy : PolicyModel := { repo_allowlist := ["acme/repo"] }

def c6State : AppState :=
  { store := { jobs := [c6Prior], repo_profiles := [c6Profile] }, policy := c6Policy }

def c6Req : WebhookRequest :=
  { sigValid := true, event := some "issues", action := some "opened"
    repoFullName := "acme/repo", issueNumber := some 7, labels := ["agent-ready"] }

/-- C6 (counterexample): a webhook for a (repo, issue) whose most recent
prior job was created 10 seconds earlier but is still **queued** is rejected
with message `Job already in progress: <job_id>`, not
`Duplicate webhook ignored: <job_id>`. -/
theorem github_webhook_duplicate_message_cex :
    github_webhook c6State c6Req 1010 "jnew" =
        (c6State, .result false "Job already in progress: jold" none) ∧
      (1010 : Int) - 120 ≤ c6Prior.created_at ∧
      "Job already in progress: jold" ≠ "Duplicate webhook ignored: jold" := by decide

/-- C6 (amended): for an `issues` webhook that passes the signature,
kill-switch, agent-ready, allowlist, issue-number and enabled-profile gates,
with a most recent prior job for the (repo, issue): if that job is in
{queued, running, awaiting_approval} the coordinator rejects with
`Job already in progress: <job_id>`; otherwise, if it was created within the
last 120 seconds, it rejects with `Duplicate webhook ignored: <job_id>` — in
both cases `accepted=false`, no new job, and no stored state mutated. -/
theorem github_webhook_duplicate_spec (st : AppState) (req : WebhookRequest) (now : Int)
    (new_job_id : String) (n : Nat) (latest : Job) (p : RepoProfile)
    (hsig : req.sigValid = true)
    (hen : agents_enabled st.agentsFlag = true)
    (hev : req.event = some "issues")
    (hready : webhook_agent_ready req = true)
    (hallow : st.policy.repo_allowed req.repoFullName = true)
    (hissue : req.issueNumber = some n) (hn : n ≠ 0)
    (hp : get_repo_profile st.store req.repoFullName = some p) (hpe : p.enabled = true)
    (hlatest : latest_job_for_issue st.store req.repoFullName n = some latest) :
    ((latest.status = JobStatus.queued ∨ latest.status = JobStatus.running ∨
        latest.status = JobStatus.awaiting_approval) →
      github_webhook st req now new_job_id =
        (st, .result false ("Job already in progress: " ++ latest.job_id) none)) ∧
      (¬(latest.status = JobStatus.queued ∨ latest.status = JobStatus.running ∨
          latest.status = JobStatus.awaiting_approval) →
        now - 120 ≤ latest.created_at →
        github_webhook st req now new_job_id =
          (st, .result false ("Duplicate webhook ignored: " ++ latest.job_id) none)) := by
  constructor
  · intro hactive
    simp [github_webhook, hsig, hen, hev, hready, hallow, hissue, hn, hp, hpe, hlatest,
      hactive]
  · intro hterm hwin
    simp [github_webhook, hsig, hen, hev, hready, hallow, hissue, hn, hp, hpe, hlatest,
      hterm, hwin]

/-- A completed prior job for `(acme/repo, #7)` created at t = 1000. -/
def c6PriorDone : Job :=
  { job_id := "jold", repo := "acme/repo", issue_number := 7, base_branch := "main"
    risk_class := .code, status := .completed, model_profile := "build"
    requires_approval := [.merge], allowed_paths := [], acceptance_commands := []
    artifact_contract := [], caps_max_minutes := 45, caps_max_iterations := 8
    caps_max_usd := 3, created_by := "github-webhook", created_at := 1000
    updated_at := 1000 }

def c6StateDone : AppState :=
  { store := { jobs := [c6PriorDone], repo_profiles := [c6Profile] }, policy := c6Policy }

/-- C6 witness: a terminal prior job inside the 120 s window draws the
`Duplicate webhook ignored` rejection with no state change. -/
theorem github_webhook_duplicate_spec_witness :
    github_webhook c6StateDone c6Req 1010 "jnew" =
      (c6StateDone, .result false "Duplicate webhook ignored: jold" none) :=
  (github_webhook_duplicate_spec c6StateDone c6Req 1010 "jnew" 7 c6PriorDone c6Profile
      (by decide) (by decide) (by decide) (by decide) (by decide) (by decide) (by decide)
      (by decide) (by decide) (by decide)).2 (by decide) (by decide)

/-- The label set built by `intake_text` (`orchestrator.py` line 253):
`sorted({label for label in payload.labels if label.lower() != "agent-ready"})`. -/
def intake_labels (labels : List String) : List String :=
  List.insertionSort (fun a b => a ≤ b)
    ((labels.filter (fun label => lowerStr label != "agent-ready")).dedup)

/-- C10: the labels attached to the created issue are exactly the input
labels minus every label whose lowercase form is `agent-ready`,
deduplicated, and sorted ascending. -/
theorem intake_labels_spec (labels : List String) :
    (intake_labels labels).Sorted (· ≤ ·) ∧
      (intake_labels labels).Nodup ∧
      ∀ x, x ∈ intake_labels labels ↔ x ∈ labels ∧ lowerStr x ≠ "agent-ready" := by
  refine ⟨List.sorted_insertionSort _ _, ?_, ?_⟩
  · exact ((List.perm_insertionSort _ _).nodup_iff).mpr (List.nodup_dedup _)
  · intro x
    simp only [intake_labels]
    rw [List.Perm.mem_iff (List.perm_insertionSort _ _), List.mem_dedup, List.mem_filter]
    simp

end KaolCode
